import Mathlib

/-!
Shallow embedding of the SevaFlow grievance pipeline
(src/sevaflow/app: config.py, models.py, services/ai_processor.py,
services/router.py, database.py, api/complaints.py, api/admin.py)
and proofs about it.

Modelling conventions:
* Python strings are Lean `String`s restricted to ASCII behaviour
  (lower/upper-casing is modelled on the ASCII letters, which covers
  every string occurring in the configuration and the claims).
* Timestamps (`datetime.now()` / `CURRENT_TIMESTAMP`) are modelled by a
  natural-number clock held in the database state that strictly
  increases with every write operation; this idealises the
  second-granularity wall clock, under which `ORDER BY changed_at ASC`
  returns rows in insertion order.
* SQLite tables are lists of rows kept in insertion order; AUTOINCREMENT
  row ids are `length + 1` (records are never deleted, so this matches
  SELECT MAX(id)).
* `float` configuration arithmetic (`sla_hours * 1.5`, `sla_hours // 2`)
  is exact for the magnitudes involved, so it is modelled with `Nat`
  (floor division) and compared against exact rational arithmetic where
  a claim speaks about real division and rounding.
-/

/-! ### ASCII character and string helpers -/

/-- ASCII lower-casing of one character (model of Python `str.lower` on
the ASCII range). -/
def asciiLower (c : Char) : Char :=
  if 65 ≤ c.toNat ∧ c.toNat ≤ 90 then Char.ofNat (c.toNat + 32) else c

/-- ASCII upper-casing of one character (model of Python `str.upper` on
the ASCII range). -/
def asciiUpper (c : Char) : Char :=
  if 97 ≤ c.toNat ∧ c.toNat ≤ 122 then Char.ofNat (c.toNat - 32) else c

/-- Model of Python `str.lower` (ASCII). -/
def strLower (s : String) : String := String.mk (s.data.map asciiLower)

/-- Model of Python `str.upper` (ASCII). -/
def strUpper (s : String) : String := String.mk (s.data.map asciiUpper)

/-- Boolean equality-based list prefix test. -/
def isPrefixC : List Char → List Char → Bool
  | [], _ => true
  | _ :: _, [] => false
  | c :: cs, d :: ds => c = d && isPrefixC cs ds

/-- Case-insensitive (ASCII) prefix test, for `re.IGNORECASE` literals. -/
def matchPrefixCI : List Char → List Char → Bool
  | [], _ => true
  | _ :: _, [] => false
  | c :: cs, d :: ds => asciiLower c = asciiLower d && matchPrefixCI cs ds

/-- Substring containment of `needle` in `hay` (model of Python
`needle in hay`). -/
def containsSub (needle : List Char) : List Char → Bool
  | [] => isPrefixC needle []
  | c :: rest => isPrefixC needle (c :: rest) || containsSub needle rest

/-- String-level substring containment, model of Python `kw in text`. -/
def strContains (hay needle : String) : Bool := containsSub needle.data hay.data

/-- Python regex `\s` on the ASCII range: space, tab, newline, carriage
return, vertical tab, form feed. -/
def isSpaceC (c : Char) : Bool :=
  c.toNat = 32 || c.toNat = 9 || c.toNat = 10 || c.toNat = 13 ||
    c.toNat = 11 || c.toNat = 12

/-- Python regex `[a-zA-Z]`. -/
def isAsciiAlpha (c : Char) : Bool :=
  (65 ≤ c.toNat && c.toNat ≤ 90) || (97 ≤ c.toNat && c.toNat ≤ 122)

/-- Python regex `[a-zA-Z\s]` (the body characters of the location
capture group). -/
def isBodyC (c : Char) : Bool := isAsciiAlpha c || isSpaceC c

/-- Model of Python `str.strip` (drop surrounding whitespace). -/
def stripChars (l : List Char) : List Char :=
  ((l.dropWhile isSpaceC).reverse.dropWhile isSpaceC).reverse

/-! ### Configuration (src/sevaflow/app/config.py) -/

/-- One entry of the `DEPARTMENTS` mapping in config.py. -/
structure DeptInfo where
  keywords : List String
  sla_hours : Nat
  contact : String
deriving Repr, DecidableEq

/-- The `DEPARTMENTS` dict of config.py, as an insertion-ordered
association list (Python dicts iterate in insertion order). -/
def DEPARTMENTS : List (String × DeptInfo) :=
  [("MCD Electrical",
    ⟨["streetlight", "light", "electricity", "power", "electrical", "lamp", "bulb"],
     48, "mcd-electrical@example.gov.in"⟩),
   ("Delhi Jal Board",
    ⟨["water", "sewage", "drainage", "pipe", "leakage", "supply", "tanker"],
     72, "djb@example.gov.in"⟩),
   ("PWD",
    ⟨["road", "pothole", "pavement", "footpath", "bridge", "flyover", "construction"],
     96, "pwd@example.gov.in"⟩),
   ("MCD Sanitation",
    ⟨["garbage", "trash", "waste", "cleaning", "sanitation", "dustbin", "sweeper"],
     24, "mcd-sanitation@example.gov.in"⟩),
   ("Traffic Police",
    ⟨["traffic", "signal", "parking", "challan", "jam", "violation", "zebra"],
     24, "traffic-police@example.gov.in"⟩),
   ("Delhi Police",
    ⟨["crime", "theft", "robbery", "safety", "police", "emergency", "harassment"],
     12, "delhi-police@example.gov.in"⟩),
   ("BSES/TPDDL",
    ⟨["meter", "bill", "voltage", "transformer", "outage", "fluctuation"],
     48, "power-discom@example.gov.in"⟩),
   ("DDA",
    ⟨["park", "garden", "encroachment", "land", "colony", "development"],
     120, "dda@example.gov.in"⟩),
   ("General Helpdesk", ⟨[], 72, "helpdesk@example.gov.in"⟩)]

/-- The `PRIORITY_KEYWORDS` dict of config.py (insertion order:
high, medium, low). -/
def PRIORITY_KEYWORDS : List (String × List String) :=
  [("high", ["urgent", "emergency", "dangerous", "hazard", "safety", "crime",
             "accident", "fire"]),
   ("medium", ["broken", "not working", "issue", "problem", "complaint"]),
   ("low", ["request", "suggestion", "feedback", "improvement"])]

/-! ### Enumerations (src/sevaflow/app/models.py) -/

/-- `PriorityLevel` enum of models.py. -/
inductive PriorityLevel where
  | low
  | medium
  | high
deriving Repr, DecidableEq

/-- Model of the `PriorityLevel(value)` enum constructor: `some` on the
three member values, `none` standing for the `ValueError` raised
otherwise. -/
def PriorityLevel.ofString : String → Option PriorityLevel
  | "low" => some .low
  | "medium" => some .medium
  | "high" => some .high
  | _ => none

/-- The `.value` string of a `PriorityLevel` member. -/
def PriorityLevel.toString : PriorityLevel → String
  | .low => "low"
  | .medium => "medium"
  | .high => "high"

/-- `ComplaintStatus` enum of models.py. -/
inductive ComplaintStatus where
  | submitted
  | assigned
  | in_progress
  | resolved
  | escalated
  | closed
deriving Repr, DecidableEq

/-- Model of the `ComplaintStatus(value)` enum constructor: `some` on
the six member values, `none` standing for the `ValueError` raised
otherwise. -/
def ComplaintStatus.ofString : String → Option ComplaintStatus
  | "submitted" => some .submitted
  | "assigned" => some .assigned
  | "in_progress" => some .in_progress
  | "resolved" => some .resolved
  | "escalated" => some .escalated
  | "closed" => some .closed
  | _ => none

/-- The `.value` string of a `ComplaintStatus` member. -/
def ComplaintStatus.toString : ComplaintStatus → String
  | .submitted => "submitted"
  | .assigned => "assigned"
  | .in_progress => "in_progress"
  | .resolved => "resolved"
  | .escalated => "escalated"
  | .closed => "closed"

/-! ### Extractor fallback (AIProcessor._fallback_extraction and helpers,
src/sevaflow/app/services/ai_processor.py) -/

/-- `AIExtractionResult` of models.py.  `confidence` is a rational
standing for the Python float; the pydantic bound `ge=0.0, le=1.0` is
enforced by `validateRawFields` below, mirroring where pydantic runs. -/
structure AIExtractionResult where
  issue_type : String
  location : String
  responsible_department : String
  priority : PriorityLevel
  confidence : ℚ
  summary : String
deriving Repr, DecidableEq

/-- Department detection loop of `_fallback_extraction`: first
department (in dict order) one of whose keywords occurs in the
lower-cased text; default `General Helpdesk`. -/
def detectDepartment (textLower : String) : String :=
  match DEPARTMENTS.find? (fun p => p.2.keywords.any (fun k => strContains textLower k)) with
  | some p => p.1
  | none => "General Helpdesk"

/-- Priority detection loop of `_fallback_extraction`: first priority
level (dict order high, medium, low) one of whose keywords occurs in
the lower-cased text; default `medium`. -/
def detectPriority (textLower : String) : PriorityLevel :=
  match PRIORITY_KEYWORDS.find? (fun p => p.2.any (fun k => strContains textLower k)) with
  | some p => (PriorityLevel.ofString p.1).getD .medium
  | none => .medium

/-- The location-type suffix alternatives of the two regexes in
`_extract_location_fallback`, in alternation order.  Both regexes use
the same words (one capitalised) and both are compiled with
`re.IGNORECASE`, so a single lower-case list serves for both. -/
def LOCATION_SUFFIXES : List String :=
  ["metro", "station", "gate", "market", "colony", "nagar", "vihar",
   "park", "road", "street", "block", "sector"]

/-- The preposition alternatives `(?:near|at|in|around)` of the first
location regex, in alternation order. -/
def PREPOSITIONS : List String := ["near", "at", "in", "around"]

/-- First suffix alternative matching (case-insensitively) at the head
of `l`, returned as its character list. -/
def findSuffixAt (l : List Char) : Option (List Char) :=
  (LOCATION_SUFFIXES.find? (fun sfx => matchPrefixCI sfx.data l)).map (fun sfx => sfx.data)

/-- Greedy backtracking of `[a-zA-Z\s]+` followed by the suffix
alternation: try body lengths from `j` down to 1, and at each split try
the suffix alternatives in order; returns body ++ suffix. -/
def matchBodySuffix (rest : List Char) : Nat → Option (List Char)
  | 0 => none
  | j + 1 =>
    match findSuffixAt (rest.drop (j + 1)) with
    | some sfx => some (rest.take (j + 1) ++ sfx)
    | none => matchBodySuffix rest j

/-- The capture group `([A-Z][a-zA-Z\s]+(?:metro|...))` (with
`re.IGNORECASE`, so `[A-Z]` is any ASCII letter) matched at the head of
`l`; returns the captured characters. -/
def matchGroupAt (l : List Char) : Option (List Char) :=
  match l with
  | [] => none
  | c :: rest =>
    if isAsciiAlpha c then
      (matchBodySuffix rest ((rest.takeWhile isBodyC).length)).map (fun g => c :: g)
    else none

/-- One preposition alternative followed by `\s+` and the capture group,
matched at the head of `l`; returns group(1).  `\s+` is taken maximally:
since the group starts with a letter and `\s` never matches a letter, no
backtracking into `\s+` can succeed. -/
def afterPreposition (p : String) (l : List Char) : Option (List Char) :=
  if matchPrefixCI p.data l then
    let rest := l.drop p.data.length
    let ws := (rest.takeWhile isSpaceC).length
    if ws = 0 then none else matchGroupAt (rest.drop ws)
  else none

/-- The first location regex matched at the head of `l`: the preposition
alternatives are tried in order. -/
def matchPattern1At (l : List Char) : Option (List Char) :=
  PREPOSITIONS.findSome? (fun p => afterPreposition p l)

/-- `re.search` of the first location regex: leftmost starting position
wins. -/
def searchPattern1 : List Char → Option (List Char)
  | [] => none
  | c :: rest =>
    match matchPattern1At (c :: rest) with
    | some g => some g
    | none => searchPattern1 rest

/-- `re.search` of the second location regex (the bare capture group). -/
def searchPattern2 : List Char → Option (List Char)
  | [] => none
  | c :: rest =>
    match matchGroupAt (c :: rest) with
    | some g => some g
    | none => searchPattern2 rest

/-- `AIProcessor._extract_location_fallback`: the two regexes are tried
in order on the raw text; a match returns `group(1).strip()`, otherwise
the sentinel `"Location not specified"`. -/
def extractLocationFallback (text : String) : String :=
  match searchPattern1 text.data with
  | some g => String.mk (stripChars g)
  | none =>
    match searchPattern2 text.data with
    | some g => String.mk (stripChars g)
    | none => "Location not specified"

/-- The `issue_mappings` table of
`AIProcessor._generate_issue_type_fallback`, in insertion order. -/
def ISSUE_MAPPINGS : List (String × String) :=
  [("streetlight", "Streetlight issue"),
   ("pothole", "Pothole on road"),
   ("garbage", "Garbage collection issue"),
   ("water", "Water supply issue"),
   ("sewage", "Sewage/drainage issue"),
   ("traffic", "Traffic issue"),
   ("parking", "Parking problem"),
   ("crime", "Law & order issue"),
   ("road", "Road maintenance issue"),
   ("electricity", "Electricity issue")]

/-- `AIProcessor._generate_issue_type_fallback` (its `department`
argument is unused in the source as well). -/
def generateIssueTypeFallback (text : String) (_department : String) : String :=
  match ISSUE_MAPPINGS.find? (fun p => strContains (strLower text) p.1) with
  | some p => p.2
  | none => "General complaint"

/-- `AIProcessor._fallback_extraction`: deterministic rule-based
extraction with the fixed fallback confidence 0.5. -/
def fallbackExtraction (text : String) : AIExtractionResult :=
  let textLower := strLower text
  let department := detectDepartment textLower
  { issue_type := generateIssueTypeFallback text department
    location := extractLocationFallback text
    responsible_department := department
    priority := detectPriority textLower
    confidence := 1 / 2
    summary := if text.data.length > 100
               then String.mk (text.data.take 100) ++ "..."
               else text }

/-! ### AI processor pipeline (AIProcessor.process_complaint,
src/sevaflow/app/services/ai_processor.py)

The LLM backends are external I/O.  A backend interaction is modelled by
its observable outcome at the `json.loads` boundary: either some
exception escapes the backend call or the response parses (after
code-fence cleaning) into a record of raw field values.  Everything the
code does after that boundary — the `PriorityLevel(...)` conversion, the
pydantic `ge=0.0, le=1.0` bound on `confidence`, the
`except (JSONDecodeError, ValueError)` handler in `_parse_llm_response`
and the `except Exception` handler in `process_complaint` — is embedded
faithfully below. -/

/-- The `LLM_PROVIDER` setting: `ollama`, `openai`, or anything else
(the `else` branch of `process_complaint`, which skips the backends). -/
inductive Provider where
  | ollama
  | openai
  | other
deriving Repr, DecidableEq

/-- Raw field values as produced by `json.loads` plus the `data.get`
defaults, before enum conversion and pydantic validation.  `confidence`
is the value produced by `float(...)`. -/
structure RawFields where
  issue_type : String
  location : String
  responsible_department : String
  priority_str : String
  confidence : ℚ
  summary : String

/-- Observable outcome of one backend call: an exception escaping the
HTTP/conversion code (network error, timeout, `raise_for_status`,
`TypeError` from `float(...)`, ...) or a cleaned response, which either
fails `json.loads` (`none`) or yields raw fields. -/
inductive BackendBehavior where
  | raises
  | respond (fields : Option RawFields)

/-- Enum conversion and pydantic validation inside
`_parse_llm_response`: `PriorityLevel(...)` raises `ValueError` on a bad
priority string and pydantic rejects `confidence` outside `[0, 1]`; both
are caught by the `except (JSONDecodeError, ValueError)` handler, so the
function returns `None` in those cases. -/
def validateRawFields (f : RawFields) : Option AIExtractionResult :=
  match PriorityLevel.ofString f.priority_str with
  | none => none
  | some p =>
    if 0 ≤ f.confidence ∧ f.confidence ≤ 1 then
      some { issue_type := f.issue_type
             location := f.location
             responsible_department := f.responsible_department
             priority := p
             confidence := f.confidence
             summary := f.summary }
    else none

/-- `AIProcessor.process_complaint`: try the configured backend; on any
exception, parse failure, or validation failure, fall back to
`_fallback_extraction`.  Never fails outward. -/
def processComplaint (prov : Provider) (b : BackendBehavior) (text : String) :
    AIExtractionResult :=
  match prov with
  | .other => fallbackExtraction text
  | _ =>
    match b with
    | .raises => fallbackExtraction text
    | .respond fields =>
      match fields.bind validateRawFields with
      | some r => r
      | none => fallbackExtraction text

/-! ### Router (Router.route_complaint, src/sevaflow/app/services/router.py) -/

/-- The department-substitution step of `route_complaint`: a department
name not present in `DEPARTMENTS` falls back to `General Helpdesk`. -/
def resolveDepartment (name : String) : String :=
  if (DEPARTMENTS.find? (fun p => p.1 == name)).isSome then name
  else "General Helpdesk"

/-- Lookup of `DEPARTMENTS[name]["sla_hours"]` (0 models the `KeyError`
case, which `route_complaint` never reaches after substitution). -/
def slaHoursOf (name : String) : Nat :=
  ((DEPARTMENTS.find? (fun p => p.1 == name)).map (fun p => p.2.sla_hours)).getD 0

/-- `Router.route_complaint`.  `sla_hours // 2` is Lean `Nat` division;
`int(sla_hours * 1.5)` is exact float arithmetic truncated toward zero,
which for naturals equals `3 * sla / 2` in `Nat` division. -/
def routeComplaint (r : AIExtractionResult) : String × Nat :=
  let department := resolveDepartment r.responsible_department
  let sla := slaHoursOf department
  match r.priority with
  | .high => (department, max (sla / 2) 6)
  | .low => (department, 3 * sla / 2)
  | .medium => (department, sla)

/-- Modelled from the spec: the routing algorithm of spec section 4.2
stated with exact rational arithmetic — substitute the default unit for
an unknown unit, then adjust the base deadline by urgency: high yields
`max(base / 2, 6)`, low yields `base * 1.5` rounded to an integer,
medium leaves the base unchanged.  This is the comparison point for the
refinement claim about `routeComplaint`. -/
def routeSpec (r : AIExtractionResult) : String × ℚ :=
  let unit := if r.responsible_department ∈ DEPARTMENTS.map (fun p => p.1)
              then r.responsible_department else "General Helpdesk"
  let base : ℚ := slaHoursOf unit
  match r.priority with
  | .high => (unit, max (base / 2) 6)
  | .low => (unit, (round (base * (3 / 2 : ℚ)) : ℤ))
  | .medium => (unit, base)

/-! ### Database layer (src/sevaflow/app/database.py)

The SQLite store is modelled as two row lists in insertion order plus a
clock.  Each database-layer function of database.py runs in one SQLite
transaction (one `async with aiosqlite.connect(...)` block ending in a
single `commit`), so each is one atomic step of the model. -/

/-- One row of the `complaints` table. -/
structure ComplaintRow where
  rowid : Nat
  complaint_id : String
  telegram_user_id : Option Int
  user_name : Option String
  raw_text : String
  issue_type : String
  location : String
  department : String
  priority : String
  status : String
  summary : String
  estimated_resolution_hours : Nat
  created_at : Nat
  updated_at : Nat
deriving Repr, DecidableEq

/-- One row of the `status_history` table. -/
structure HistoryRow where
  rowid : Nat
  complaint_id : String
  old_status : String
  new_status : String
  changed_at : Nat
  notes : Option String
  changed_by : Option String
deriving Repr, DecidableEq

/-- The durable store: both tables in insertion order, plus the clock
providing `datetime.now()` / `CURRENT_TIMESTAMP` values. -/
structure DBState where
  complaints : List ComplaintRow
  history : List HistoryRow
  clock : Nat
deriving Repr, DecidableEq

/-- The store right after `init_db` on a fresh file: both tables empty. -/
def initState : DBState := ⟨[], [], 0⟩

/-- `get_complaint_by_id`: `SELECT * FROM complaints WHERE complaint_id = ?`
and `fetchone` — the first (under the UNIQUE constraint, only) row with
that id, `None` if absent. -/
def getComplaintById (s : DBState) (cid : String) : Option ComplaintRow :=
  s.complaints.find? (fun c => c.complaint_id == cid)

/-- The non-id arguments of `create_complaint`, bundled (the Python
function takes them as separate parameters in this order). -/
structure RegArgs where
  telegram_user_id : Option Int
  user_name : Option String
  raw_text : String
  issue_type : String
  location : String
  department : String
  priority : String
  summary : String
  estimated_hours : Nat
deriving Repr, DecidableEq

/-- `create_complaint`: inserts the complaint row with status
`"submitted"` together with its initial `status_history` row
(`"new" → "submitted"`, notes `"Complaint registered"`) in one
transaction.  `none` models the `IntegrityError` raised by the UNIQUE
constraint on `complaint_id` (the transaction is rolled back, leaving
the store unchanged). -/
def createComplaint (s : DBState) (cid : String) (a : RegArgs) : Option DBState :=
  if s.complaints.any (fun c => c.complaint_id == cid) then none
  else
    some
      { complaints := s.complaints ++
          [{ rowid := s.complaints.length + 1
             complaint_id := cid
             telegram_user_id := a.telegram_user_id
             user_name := a.user_name
             raw_text := a.raw_text
             issue_type := a.issue_type
             location := a.location
             department := a.department
             priority := a.priority
             status := "submitted"
             summary := a.summary
             estimated_resolution_hours := a.estimated_hours
             created_at := s.clock
             updated_at := s.clock }]
        history := s.history ++
          [{ rowid := s.history.length + 1
             complaint_id := cid
             old_status := "new"
             new_status := "submitted"
             changed_at := s.clock
             notes := some "Complaint registered"
             changed_by := none }]
        clock := s.clock + 1 }

/-- `update_complaint_status`: reads the current status; if the id is
unknown, returns `None` without touching the store; otherwise updates
status and `updated_at`, appends one `status_history` row, and returns
the re-fetched complaint. -/
def updateComplaintStatus (s : DBState) (cid : String) (new_status : String)
    (notes changed_by : Option String) : Option ComplaintRow × DBState :=
  match getComplaintById s cid with
  | none => (none, s)
  | some row =>
    let s' : DBState :=
      { complaints := s.complaints.map (fun c =>
          if c.complaint_id == cid
          then { c with status := new_status, updated_at := s.clock }
          else c)
        history := s.history ++
          [{ rowid := s.history.length + 1
             complaint_id := cid
             old_status := row.status
             new_status := new_status
             changed_at := s.clock
             notes := notes
             changed_by := changed_by }]
        clock := s.clock + 1 }
    (getComplaintById s' cid, s')

/-- The `status_history` rows of one complaint in stored (= timestamp)
order: `SELECT * FROM status_history WHERE complaint_id = ? ORDER BY
changed_at ASC`. -/
def histFor (s : DBState) (cid : String) : List HistoryRow :=
  s.history.filter (fun h => h.complaint_id == cid)

/-- `StatusHistoryEntry` of models.py: the parsed form returned by
`get_status_history`. -/
structure StatusHistoryEntry where
  id : Nat
  complaint_id : String
  old_status : ComplaintStatus
  new_status : ComplaintStatus
  changed_at : Nat
  notes : Option String
  changed_by : Option String
deriving Repr, DecidableEq

/-- The `old_status` conversion in `get_status_history`: the stored
sentinel `"new"` is mapped to `ComplaintStatus.SUBMITTED`; any other
string goes through the `ComplaintStatus(...)` constructor. -/
def translateOld (st : String) : Option ComplaintStatus :=
  if st = "new" then some .submitted else ComplaintStatus.ofString st

/-- Row-by-row parsing of one `status_history` row into a
`StatusHistoryEntry`; `none` models the `ValueError` a malformed stored
status would raise. -/
def rowToEntry (r : HistoryRow) : Option StatusHistoryEntry :=
  match translateOld r.old_status, ComplaintStatus.ofString r.new_status with
  | some o, some n =>
    some { id := r.rowid
           complaint_id := r.complaint_id
           old_status := o
           new_status := n
           changed_at := r.changed_at
           notes := r.notes
           changed_by := r.changed_by }
  | _, _ => none

/-- Option-valued map over a list, failing if any element fails (the
list comprehension of `get_status_history`, whose enum conversions can
raise). -/
def optionMapList (f : α → Option β) : List α → Option (List β)
  | [] => some []
  | a :: as =>
    match f a, optionMapList f as with
    | some b, some bs => some (b :: bs)
    | _, _ => none

/-- `get_status_history`: the complaint's history rows, oldest first,
parsed into `StatusHistoryEntry` values. -/
def getStatusHistory (s : DBState) (cid : String) : Option (List StatusHistoryEntry) :=
  optionMapList rowToEntry (histFor s cid)

/-! ### Lifecycle state machine and its invariant -/

/-- Contiguity of a stored history chain: each row's `old_status` equals
the previous row's `new_status`, starting from `prev`. -/
def chainFromB (prev : String) : List HistoryRow → Bool
  | [] => true
  | r :: rest => (r.old_status == prev) && chainFromB r.new_status rest

/-- The `new_status` of the last row, or `prev` for an empty chain. -/
def lastNewStatus (prev : String) : List HistoryRow → String
  | [] => prev
  | r :: rest => lastNewStatus r.new_status rest

/-- Contiguity of a returned history chain at `StatusHistoryEntry`
level, starting from `prev`: the first entry's prior status is `prev`
and each later entry's prior status is its predecessor's new status. -/
def entryChainFromB (prev : ComplaintStatus) : List StatusHistoryEntry → Bool
  | [] => true
  | e :: rest => (e.old_status == prev) && entryChainFromB e.new_status rest

/-- States reachable through the public interface: a fresh store,
registrations (api/complaints.py `submit_complaint`, which calls
`create_complaint` with a fresh id — the success of the insert is the
hypothesis `heq`), and status updates (api/admin.py
`update_complaint_status`, whose request model restricts the target to
the `ComplaintStatus` enumeration). -/
inductive Reachable : DBState → Prop where
  | init : Reachable initState
  | register (s s' : DBState) (cid : String) (a : RegArgs) (h : Reachable s)
      (heq : createComplaint s cid a = some s') : Reachable s'
  | transition (s : DBState) (cid : String) (ns : ComplaintStatus)
      (notes changed_by : Option String) (h : Reachable s) :
      Reachable (updateComplaintStatus s cid (ComplaintStatus.toString ns) notes changed_by).2

/-- Store invariant maintained by the public operations. -/
structure StoreInv (s : DBState) : Prop where
  uniq : s.complaints.Pairwise (fun a b => a.complaint_id ≠ b.complaint_id)
  owner : ∀ h ∈ s.history, ∃ c ∈ s.complaints, c.complaint_id = h.complaint_id
  historyNonempty : ∀ c ∈ s.complaints, histFor s c.complaint_id ≠ []
  chains : ∀ c ∈ s.complaints, chainFromB "new" (histFor s c.complaint_id) = true
  lastSt : ∀ c ∈ s.complaints, lastNewStatus "new" (histFor s c.complaint_id) = c.status
  validNew : ∀ h ∈ s.history, (ComplaintStatus.ofString h.new_status).isSome = true
  sorted : s.history.Pairwise (fun a b => a.changed_at < b.changed_at)
  clockLt : ∀ h ∈ s.history, h.changed_at < s.clock

/-! ### API layer id handling (src/sevaflow/app/api/complaints.py and
api/admin.py)

Each endpoint upper-cases the path id before every lookup and echoes the
upper-cased id in its response. -/

/-- GET `/api/complaints/(id)`: the record, or `none` for the 404 case. -/
def apiGetComplaint (s : DBState) (cid : String) : Option ComplaintRow :=
  getComplaintById s (strUpper cid)

/-- GET `/api/complaints/(id)/history`: 404 if the record is absent,
otherwise the echoed upper-cased id, the current status, and the parsed
history. -/
def apiGetHistory (s : DBState) (cid : String) :
    Option (String × String × Option (List StatusHistoryEntry)) :=
  match getComplaintById s (strUpper cid) with
  | none => none
  | some c => some (strUpper cid, c.status, getStatusHistory s (strUpper cid))

/-- PATCH `/api/admin/complaints/(id)/status`: 404 if the record is
absent, otherwise the database update with `changed_by="Admin"`, plus
the response payload (echoed upper-cased id, old and new status). -/
def apiUpdateStatus (s : DBState) (cid : String) (ns : ComplaintStatus)
    (notes : Option String) : Option (String × String × String) × DBState :=
  match getComplaintById s (strUpper cid) with
  | none => (none, s)
  | some c =>
    let out := updateComplaintStatus s (strUpper cid) (ComplaintStatus.toString ns)
      notes (some "Admin")
    (some (strUpper cid, c.status, ComplaintStatus.toString ns), out.2)

/-! ### Concurrent registration model (src/sevaflow/app/database.py
`get_next_complaint_id` and api/complaints.py `submit_complaint`)

`submit_complaint` allocates the reference id with
`get_next_complaint_id` — `SELECT MAX(id) FROM complaints` in its own
connection and transaction — and only then calls `create_complaint` in a
second transaction.  A registration is therefore two atomic store steps,
and two concurrent registrations interleave at that granularity. -/

/-- `SELECT MAX(id) FROM complaints` (0 on an empty table). -/
def maxRowid (l : List ComplaintRow) : Nat :=
  l.foldr (fun c m => max c.rowid m) 0

/-- Python `f"(n):04d"`: decimal digits left-padded with zeros to width
four. -/
def pad4 (n : Nat) : String :=
  let s := Nat.repr n
  String.mk (List.replicate (4 - s.length) '0') ++ s

/-- `get_next_complaint_id`: `SF-` followed by MAX(id)+1 zero-padded. -/
def nextComplaintIdStr (s : DBState) : String :=
  "SF-" ++ pad4 (maxRowid s.complaints + 1)

/-- One in-flight registration: its payload, the id it has allocated (if
it has run `get_next_complaint_id` yet), and its outcome (`true` =
created, `false` = `IntegrityError` from the UNIQUE constraint). -/
structure RegProc where
  args : RegArgs
  cid : Option String
  done : Option Bool
deriving Repr, DecidableEq

/-- One atomic store step of a registration: allocate the id if not yet
allocated, otherwise attempt the create (whose failure rolls back). -/
def regStep (db : DBState) (p : RegProc) : DBState × RegProc :=
  match p.cid, p.done with
  | none, _ => (db, { p with cid := some (nextComplaintIdStr db) })
  | some cid, none =>
    match createComplaint db cid p.args with
    | some db' => (db', { p with done := some true })
    | none => (db, { p with done := some false })
  | some _, some _ => (db, p)

/-- Two concurrent registrations sharing the store. -/
structure SysState where
  db : DBState
  p1 : RegProc
  p2 : RegProc
deriving Repr, DecidableEq

/-- Scheduler step: `true` runs a step of the first registration,
`false` one of the second. -/
def sysStep (st : SysState) (b : Bool) : SysState :=
  if b then
    let (db', p') := regStep st.db st.p1
    ⟨db', p', st.p2⟩
  else
    let (db', p') := regStep st.db st.p2
    ⟨db', st.p1, p'⟩

/-- Run a schedule (list of scheduler choices) from a system state. -/
def runSchedule (sched : List Bool) (st : SysState) : SysState :=
  sched.foldl sysStep st

/-- A not-yet-started registration with payload `a`. -/
def freshProc (a : RegArgs) : RegProc := ⟨a, none, none⟩

/-! ### Concrete example values used by scenario theorems and witnesses -/

/-- The complaint text of the streetlight scenario. -/
def streetlightText : String :=
  "Streetlight near Laxmi Nagar metro gate broken for 3 days"

/-- Example registration payload. -/
def exampleArgs : RegArgs :=
  ⟨none, none, "Streetlight broken in my area", "Streetlight issue",
   "Location not specified", "MCD Electrical", "medium",
   "Streetlight broken in my area", 48⟩

/-- A second example registration payload. -/
def ex2Args : RegArgs :=
  ⟨none, none, "Garbage not collected for a week", "Garbage collection issue",
   "Location not specified", "MCD Sanitation", "medium",
   "Garbage not collected for a week", 24⟩

/-- The complaint row created by registering `exampleArgs` as SF-0001 on
the fresh store. -/
def exampleRow : ComplaintRow :=
  ⟨1, "SF-0001", none, none, "Streetlight broken in my area", "Streetlight issue",
   "Location not specified", "MCD Electrical", "medium", "submitted",
   "Streetlight broken in my area", 48, 0, 0⟩

/-- The audit row created together with `exampleRow`. -/
def exampleHist : HistoryRow :=
  ⟨1, "SF-0001", "new", "submitted", 0, some "Complaint registered", none⟩

/-- The store after registering `exampleArgs` as SF-0001 on the fresh
store. -/
def exampleState : DBState := ⟨[exampleRow], [exampleHist], 1⟩

/-- Two concurrent registrations about to start on the fresh store. -/
def sysInitEx : SysState := ⟨initState, freshProc exampleArgs, freshProc ex2Args⟩

/-! ### Helper lemmas -/

/-- Every configured department has an even base SLA of at least 12
hours. -/
theorem departments_sla_even_ge12 :
    ∀ p ∈ DEPARTMENTS, p.2.sla_hours % 2 = 0 ∧ 12 ≤ p.2.sla_hours := by decide

/-- After the substitution step, the looked-up base SLA is one of the
configured values: even and at least 12. -/
theorem slaHoursOf_resolved (name : String) :
    slaHoursOf (resolveDepartment name) % 2 = 0 ∧
      12 ≤ slaHoursOf (resolveDepartment name) := by
  unfold resolveDepartment
  rcases hf : DEPARTMENTS.find? (fun p => p.1 == name) with _ | p
  · simp only [hf, Option.isSome_none, Bool.false_eq_true, if_false]
    decide
  · have hm := List.mem_of_find?_eq_some hf
    simp only [hf, Option.isSome_some, if_true]
    have hval : slaHoursOf name = p.2.sla_hours := by
      unfold slaHoursOf
      rw [hf]
      rfl
    rw [hval]
    exact departments_sla_even_ge12 p hm

/-- The substitution step written with the spec's membership wording
agrees with the code's `find?`-based test. -/
theorem resolveDepartment_mem_eq (name : String) :
    resolveDepartment name =
      (if name ∈ DEPARTMENTS.map (fun p => p.1) then name else "General Helpdesk") := by
  unfold resolveDepartment
  by_cases h : name ∈ DEPARTMENTS.map (fun p => p.1)
  · rw [if_pos h, if_pos]
    rw [Option.isSome_iff_exists]
    rcases List.mem_map.mp h with ⟨p, hp, hname⟩
    have : ∃ q ∈ DEPARTMENTS, (q.1 == name) = true := ⟨p, hp, by simp [hname]⟩
    rcases List.find?_isSome.mpr this with h'
    exact Option.isSome_iff_exists.mp h'
  · rw [if_neg h, if_neg]
    intro hs
    rcases Option.isSome_iff_exists.mp hs with ⟨q, hq⟩
    have hqn := List.find?_some (p := fun x : String × DeptInfo => x.1 == name) hq
    exact h (List.mem_map.mpr ⟨q, List.mem_of_find?_eq_some hq, by simpa using hqn⟩)

/-- The fallback extraction always reports the fixed confidence 0.5. -/
theorem fallbackExtraction_confidence (text : String) :
    (fallbackExtraction text).confidence = 1 / 2 := rfl

/-! ### Claim theorems -/

/-- C3: for every ClassificationResult — any responsible-unit string and
any urgency — `route_complaint` returns a deadline of at least 6 hours,
whichever urgency-adjustment branch is taken. -/
theorem route_deadline_floor (r : AIExtractionResult) :
    6 ≤ (routeComplaint r).2 := by
  obtain ⟨heven, hge⟩ := slaHoursOf_resolved r.responsible_department
  unfold routeComplaint
  cases r.priority <;> simp only <;> omega

/-- C4: `route_complaint` substitutes the default unit for an
unconfigured one, looks up the unit's base SLA, and adjusts it by
urgency exactly as the spec's formulas state over exact arithmetic:
high yields `max(base / 2, 6)`, low yields `base * 1.5` rounded to an
integer, medium yields the base unchanged. -/
theorem route_matches_spec_formula (r : AIExtractionResult) :
    (routeComplaint r).1 = (routeSpec r).1 ∧
      ((routeComplaint r).2 : ℚ) = (routeSpec r).2 := by
  obtain ⟨heven, hge⟩ := slaHoursOf_resolved r.responsible_department
  obtain ⟨k, hk⟩ : ∃ k, slaHoursOf (resolveDepartment r.responsible_department) = 2 * k :=
    ⟨slaHoursOf (resolveDepartment r.responsible_department) / 2, by omega⟩
  have hunit :
      (if r.responsible_department ∈ DEPARTMENTS.map (fun p => p.1)
       then r.responsible_department else "General Helpdesk") =
        resolveDepartment r.responsible_department :=
    (resolveDepartment_mem_eq r.responsible_department).symm
  rcases r with ⟨it, loc, dept, prio, conf, summ⟩
  simp only [routeComplaint, routeSpec] at heven hge hk hunit ⊢
  rw [hunit]
  cases prio
  case low =>
    refine ⟨rfl, ?_⟩
    simp only
    rw [hk]
    have h1 : (3 * (2 * k) / 2 : ℕ) = 3 * k := by omega
    have h2 : ((2 * k : ℕ) : ℚ) * (3 / 2 : ℚ) = ((3 * k : ℕ) : ℚ) := by
      push_cast
      ring
    rw [h1, h2, round_natCast]
    norm_cast
  case medium =>
    exact ⟨rfl, rfl⟩
  case high =>
    refine ⟨rfl, ?_⟩
    simp only
    rw [hk]
    have h1 : (2 * k / 2 : ℕ) = k := by omega
    have h2 : ((2 * k : ℕ) : ℚ) / 2 = (k : ℚ) := by
      push_cast
      ring
    rw [h1, h2]
    push_cast [Nat.cast_max]
    rfl


/-- A successfully validated parse result satisfies the pydantic
confidence bounds. -/
theorem validateRawFields_bounds (f : RawFields) (r : AIExtractionResult)
    (h : validateRawFields f = some r) : 0 ≤ r.confidence ∧ r.confidence ≤ 1 := by
  unfold validateRawFields at h
  split at h
  · exact Option.noConfusion h
  · split at h
    next hc =>
      cases h
      exact hc
    next hc => exact Option.noConfusion h

/-- Every extraction result's priority is one of the three enumerated
values. -/
theorem priority_enum (x : AIExtractionResult) :
    x.priority = .low ∨ x.priority = .medium ∨ x.priority = .high := by
  cases x.priority
  · exact Or.inl rfl
  · exact Or.inr (Or.inl rfl)
  · exact Or.inr (Or.inr rfl)

/-- A non-`other` provider with a parseable, validating response returns
the parsed result; this is the only non-fallback path of
`process_complaint`. -/
theorem processComplaint_respond_some (prov : Provider) (hprov : prov ≠ .other)
    (f : RawFields) (text : String) :
    processComplaint prov (.respond (some f)) text =
      (match validateRawFields f with
       | some r => r
       | none => fallbackExtraction text) := by
  cases prov
  · rfl
  · rfl
  · exact absurd rfl hprov

/-- Exhaustive outcome analysis of `process_complaint`: either the
fallback runs, or a validated backend result is returned as-is. -/
theorem processComplaint_outcomes (prov : Provider) (b : BackendBehavior) (text : String) :
    processComplaint prov b text = fallbackExtraction text ∨
      ∃ f r, b = .respond (some f) ∧ validateRawFields f = some r ∧
        processComplaint prov b text = r := by
  cases prov
  case other => exact Or.inl rfl
  all_goals
    cases b with
    | raises => exact Or.inl rfl
    | respond fields =>
      cases fields with
      | none => exact Or.inl rfl
      | some f =>
        rcases hv : validateRawFields f with _ | r
        · refine Or.inl ?_
          rw [processComplaint_respond_some _ (by decide) f text, hv]
        · refine Or.inr ⟨f, r, rfl, hv, ?_⟩
          rw [processComplaint_respond_some _ (by decide) f text, hv]

/-- C2: for every text and every backend behaviour, `classify` never
raises, returns urgency in the enumeration and confidence in [0, 1],
and a backend exception or unparseable output falls back to the
deterministic rule-based extraction. -/
theorem classify_total_and_bounded (prov : Provider) (b : BackendBehavior) (text : String) :
    0 ≤ (processComplaint prov b text).confidence ∧
      (processComplaint prov b text).confidence ≤ 1 ∧
      ((processComplaint prov b text).priority = .low ∨
        (processComplaint prov b text).priority = .medium ∨
        (processComplaint prov b text).priority = .high) ∧
      (b = .raises → processComplaint prov b text = fallbackExtraction text) ∧
      (b = .respond none → processComplaint prov b text = fallbackExtraction text) := by
  have hfb : 0 ≤ (fallbackExtraction text).confidence ∧
      (fallbackExtraction text).confidence ≤ 1 := by
    rw [fallbackExtraction_confidence]
    norm_num
  rcases processComplaint_outcomes prov b text with h | ⟨f, r, hb, hv, h⟩
  · rw [h]
    exact ⟨hfb.1, hfb.2, priority_enum _, fun _ => rfl, fun _ => rfl⟩
  · rw [h]
    refine ⟨(validateRawFields_bounds f r hv).1, (validateRawFields_bounds f r hv).2,
      priority_enum _, ?_, ?_⟩
    · intro hr
      rw [hb] at hr
      exact BackendBehavior.noConfusion hr
    · intro hr
      rw [hb] at hr
      exact Option.noConfusion (BackendBehavior.respond.inj hr)

/-- Witness for C2 at a concrete provider, backend behaviour and text. -/
theorem classify_total_and_bounded_witness :
    0 ≤ (processComplaint .ollama .raises "water leak").confidence ∧
      (processComplaint .ollama .raises "water leak").confidence ≤ 1 ∧
      ((processComplaint .ollama .raises "water leak").priority = .low ∨
        (processComplaint .ollama .raises "water leak").priority = .medium ∨
        (processComplaint .ollama .raises "water leak").priority = .high) ∧
      (BackendBehavior.raises = .raises →
        processComplaint .ollama .raises "water leak" = fallbackExtraction "water leak") ∧
      (BackendBehavior.raises = .respond none →
        processComplaint .ollama .raises "water leak" = fallbackExtraction "water leak") :=
  classify_total_and_bounded .ollama .raises "water leak"

set_option maxRecDepth 20000 in
/-- C7: on the streetlight scenario text with no backend available, the
deterministic fallback classifies the responsible unit as MCD
Electrical, the urgency as medium, a location containing
"Laxmi Nagar metro gate", and the fixed fallback confidence 0.5. -/
theorem fallback_streetlight_scenario :
    processComplaint .other .raises streetlightText = fallbackExtraction streetlightText ∧
      (fallbackExtraction streetlightText).responsible_department = "MCD Electrical" ∧
      (fallbackExtraction streetlightText).priority = .medium ∧
      strContains (fallbackExtraction streetlightText).location "Laxmi Nagar metro gate" = true ∧
      (fallbackExtraction streetlightText).confidence = 1 / 2 :=
  ⟨rfl, by decide, by decide, by decide, rfl⟩

/-- C8 counterexample: on a text matched by neither location pattern the
fallback stores the sentinel "Location not specified", which is not the
claimed sentinel "not specified". -/
theorem fallback_location_sentinel_cex :
    searchPattern1 "abc".data = none ∧ searchPattern2 "abc".data = none ∧
      extractLocationFallback "abc" = "Location not specified" ∧
      extractLocationFallback "abc" ≠ "not specified" := by decide

/-- C8 (amended): for every input text in which neither location pattern
matches, the deterministic fallback sets the location field to the
sentinel "Location not specified". -/
theorem fallback_location_sentinel (text : String)
    (h1 : searchPattern1 text.data = none) (h2 : searchPattern2 text.data = none) :
    extractLocationFallback text = "Location not specified" := by
  unfold extractLocationFallback
  rw [h1, h2]

/-- Witness for C8 at a concrete unmatched text. -/
theorem fallback_location_sentinel_witness :
    searchPattern1 "abc".data = none ∧ searchPattern2 "abc".data = none ∧
      extractLocationFallback "abc" = "Location not specified" :=
  ⟨by decide, by decide, fallback_location_sentinel "abc" (by decide) (by decide)⟩

/-- C5: a transition on a reference id that does not exist returns the
distinct NotFound result (`none`), creates no audit entry, and leaves
the store unchanged. -/
theorem transition_unknown_id_notfound (s : DBState) (cid new_status : String)
    (notes changed_by : Option String) (h : getComplaintById s cid = none) :
    updateComplaintStatus s cid new_status notes changed_by = (none, s) := by
  unfold updateComplaintStatus
  rw [h]

/-- Witness for C5: SF-9999 is unknown on the fresh store. -/
theorem transition_unknown_id_notfound_witness :
    getComplaintById initState "SF-9999" = none ∧
      updateComplaintStatus initState "SF-9999" "resolved" none none = (none, initState) :=
  ⟨rfl, transition_unknown_id_notfound initState "SF-9999" "resolved" none none rfl⟩

/-- The fresh example store really is the result of the example
registration. -/
theorem exampleState_create :
    createComplaint initState "SF-0001" exampleArgs = some exampleState := by decide

/-- `find?` commutes with the status-updating map, because updating a
row preserves its `complaint_id`. -/
theorem find?_status_update (l : List ComplaintRow) (cid ns : String) (now : Nat) :
    (l.map (fun c => if c.complaint_id == cid
        then { c with status := ns, updated_at := now } else c)).find?
      (fun c => c.complaint_id == cid) =
    (l.find? (fun c => c.complaint_id == cid)).map
      (fun c => if c.complaint_id == cid
        then { c with status := ns, updated_at := now } else c) := by
  induction l with
  | nil => rfl
  | cons c rest ih =>
    by_cases h : (c.complaint_id == cid) = true
    · have h2 : (((if c.complaint_id == cid
          then { c with status := ns, updated_at := now } else c) : ComplaintRow).complaint_id
            == cid) = true := by
        rw [if_pos h]
        exact h
      rw [List.map_cons,
        List.find?_cons_of_pos (p := fun c : ComplaintRow => c.complaint_id == cid) _ h2,
        List.find?_cons_of_pos (p := fun c : ComplaintRow => c.complaint_id == cid) _ h]
      rfl
    · have h2 : ¬(((if c.complaint_id == cid
          then { c with status := ns, updated_at := now } else c) : ComplaintRow).complaint_id
            == cid) = true := by
        rw [if_neg h]
        exact h
      rw [List.map_cons,
        List.find?_cons_of_neg (p := fun c : ComplaintRow => c.complaint_id == cid) _ h2,
        List.find?_cons_of_neg (p := fun c : ComplaintRow => c.complaint_id == cid) _ h, ih]

/-- C6: on an existing record, a transition to any target status
succeeds, returns the record with exactly its status and last-updated
fields changed, appends exactly one new audit entry carrying the old and
new statuses, and leaves every other record untouched. -/
theorem transition_total_frame (s : DBState) (cid : String) (ns : ComplaintStatus)
    (notes changed_by : Option String) (row : ComplaintRow)
    (h : getComplaintById s cid = some row) :
    (updateComplaintStatus s cid (ComplaintStatus.toString ns) notes changed_by).1 =
      some { row with status := ComplaintStatus.toString ns, updated_at := s.clock } ∧
    (updateComplaintStatus s cid (ComplaintStatus.toString ns) notes changed_by).2.history =
      s.history ++
        [{ rowid := s.history.length + 1, complaint_id := cid, old_status := row.status,
           new_status := ComplaintStatus.toString ns, changed_at := s.clock,
           notes := notes, changed_by := changed_by }] ∧
    (∀ c ∈ s.complaints, c.complaint_id ≠ cid →
      c ∈ (updateComplaintStatus s cid (ComplaintStatus.toString ns) notes changed_by).2.complaints) := by
  have h' : s.complaints.find? (fun c => c.complaint_id == cid) = some row := h
  have hrow : (row.complaint_id == cid) = true :=
    List.find?_some (p := fun c : ComplaintRow => c.complaint_id == cid) h'
  unfold updateComplaintStatus
  rw [h]
  refine ⟨?_, rfl, ?_⟩
  · show getComplaintById _ cid = _
    unfold getComplaintById
    simp only
    rw [find?_status_update, h', Option.map_some']
    rw [if_pos hrow]
  · intro c hc hne
    simp only
    refine List.mem_map.mpr ⟨c, hc, ?_⟩
    rw [if_neg]
    simp only [beq_iff_eq]
    exact hne

/-- Witness for C6: transitioning the example record to `resolved`. -/
theorem transition_total_frame_witness :
    getComplaintById exampleState "SF-0001" = some exampleRow ∧
    ((updateComplaintStatus exampleState "SF-0001"
        (ComplaintStatus.toString .resolved) (some "done") (some "Admin")).1 =
      some { exampleRow with status := ComplaintStatus.toString .resolved,
                             updated_at := exampleState.clock } ∧
    (updateComplaintStatus exampleState "SF-0001"
        (ComplaintStatus.toString .resolved) (some "done") (some "Admin")).2.history =
      exampleState.history ++
        [{ rowid := exampleState.history.length + 1, complaint_id := "SF-0001",
           old_status := exampleRow.status,
           new_status := ComplaintStatus.toString .resolved,
           changed_at := exampleState.clock,
           notes := some "done", changed_by := some "Admin" }] ∧
    (∀ c ∈ exampleState.complaints, c.complaint_id ≠ "SF-0001" →
      c ∈ (updateComplaintStatus exampleState "SF-0001"
        (ComplaintStatus.toString .resolved) (some "done") (some "Admin")).2.complaints)) :=
  ⟨rfl, transition_total_frame exampleState "SF-0001" .resolved
    (some "done") (some "Admin") exampleRow rfl⟩

/-- ASCII upper-casing is idempotent: upper-casing a lower-case letter
yields an upper-case letter, which upper-casing leaves alone. -/
theorem asciiUpper_idem (c : Char) : asciiUpper (asciiUpper c) = asciiUpper c := by
  unfold asciiUpper
  by_cases h : 97 ≤ c.toNat ∧ c.toNat ≤ 122
  · rw [if_pos h]
    obtain ⟨h1, h2⟩ := h
    set n := c.toNat with hn
    interval_cases n <;> decide
  · rw [if_neg h, if_neg h]

/-- ASCII string upper-casing is idempotent. -/
theorem strUpper_idem (s : String) : strUpper (strUpper s) = strUpper s := by
  show String.mk ((s.data.map asciiUpper).map asciiUpper) = String.mk (s.data.map asciiUpper)
  rw [List.map_map]
  have : asciiUpper ∘ asciiUpper = asciiUpper := funext asciiUpper_idem
  rw [this]

/-- C10: the get, history, and status-update endpoints upper-case the
supplied reference id before every lookup, so each behaves identically
on an id and on its upper-cased form. -/
theorem api_id_case_insensitive (s : DBState) (cid : String) (ns : ComplaintStatus)
    (notes : Option String) :
    apiGetComplaint s (strUpper cid) = apiGetComplaint s cid ∧
      apiGetHistory s (strUpper cid) = apiGetHistory s cid ∧
      apiUpdateStatus s (strUpper cid) ns notes = apiUpdateStatus s cid ns notes := by
  refine ⟨?_, ?_, ?_⟩ <;>
    simp only [apiGetComplaint, apiGetHistory, apiUpdateStatus, strUpper_idem]

/-- C9: the reference-id allocation runs in its own transaction, so two
interleaved registrations can both read MAX(id) = 0 and both allocate
SF-0001; the first insert succeeds and the second fails on the UNIQUE
constraint.  Both serial schedules make both registrations succeed with
distinct ids, so the interleaved outcome matches no serial outcome:
allocation plus create-with-audit is not an atomic unit.  (The two
safety halves of the claim do hold: the interleaved run still creates no
duplicate ids and no record without its audit row.) -/
theorem concurrent_registration_race :
    (runSchedule [true, true, false, false] sysInitEx).p1.done = some true ∧
      (runSchedule [true, true, false, false] sysInitEx).p2.done = some true ∧
      (runSchedule [true, true, false, false] sysInitEx).db.complaints.length = 2 ∧
      (runSchedule [false, false, true, true] sysInitEx).p1.done = some true ∧
      (runSchedule [false, false, true, true] sysInitEx).p2.done = some true ∧
      (runSchedule [true, false, true, false] sysInitEx).p1.cid = some "SF-0001" ∧
      (runSchedule [true, false, true, false] sysInitEx).p2.cid = some "SF-0001" ∧
      (runSchedule [true, false, true, false] sysInitEx).p1.done = some true ∧
      (runSchedule [true, false, true, false] sysInitEx).p2.done = some false ∧
      (runSchedule [true, false, true, false] sysInitEx).db.complaints.length = 1 := by
  decide

/-- Round trip of the status enumeration through its `.value` string. -/
theorem ofString_toString (cs : ComplaintStatus) :
    ComplaintStatus.ofString (ComplaintStatus.toString cs) = some cs := by
  cases cs <;> rfl

/-- On a valid status string, `get_status_history` converts the prior
status with the plain enum constructor (the string cannot be the
sentinel `"new"`, which is not a member value). -/
theorem translateOld_of_valid (st : String)
    (h : (ComplaintStatus.ofString st).isSome = true) :
    translateOld st = ComplaintStatus.ofString st := by
  unfold translateOld
  by_cases hnew : st = "new"
  · subst hnew
    exact absurd h (by decide)
  · rw [if_neg hnew]

/-- Appending one row to a contiguous chain stays contiguous exactly
when the new row's prior status is the chain's last new status. -/
theorem chainFromB_append (prev : String) (l : List HistoryRow) (r : HistoryRow) :
    chainFromB prev (l ++ [r]) =
      (chainFromB prev l && (r.old_status == lastNewStatus prev l)) := by
  induction l generalizing prev with
  | nil => simp [chainFromB, lastNewStatus]
  | cons a as ih =>
    simp only [List.cons_append, chainFromB, lastNewStatus, List.append_eq, ih,
      Bool.and_assoc]

/-- The last new status of a chain with one row appended is that row's
new status. -/
theorem lastNewStatus_append (prev : String) (l : List HistoryRow) (r : HistoryRow) :
    lastNewStatus prev (l ++ [r]) = r.new_status := by
  induction l generalizing prev with
  | nil => rfl
  | cons a as ih => exact ih a.new_status

/-- The last new status of a chain is the seed or some member row's new
status. -/
theorem lastNewStatus_mem (prev : String) (l : List HistoryRow) :
    lastNewStatus prev l = prev ∨ ∃ r ∈ l, lastNewStatus prev l = r.new_status := by
  induction l generalizing prev with
  | nil => exact Or.inl rfl
  | cons a as ih =>
    rcases ih a.new_status with h | ⟨r, hr, h⟩
    · exact Or.inr ⟨a, List.mem_cons_self a as, h⟩
    · exact Or.inr ⟨r, List.mem_cons_of_mem a hr, h⟩

/-- Under unique complaint ids, two stored rows with the same id are the
same row. -/
theorem uniq_cid_eq {l : List ComplaintRow}
    (hu : l.Pairwise (fun a b => a.complaint_id ≠ b.complaint_id))
    {a b : ComplaintRow} (ha : a ∈ l) (hb : b ∈ l)
    (hab : a.complaint_id = b.complaint_id) : a = b := by
  induction l with
  | nil => cases ha
  | cons x xs ih =>
    rcases List.pairwise_cons.mp hu with ⟨hx, hxs⟩
    rcases List.mem_cons.mp ha with ha1 | ha2 <;> rcases List.mem_cons.mp hb with hb1 | hb2
    · rw [ha1, hb1]
    · subst ha1
      exact absurd hab (hx b hb2)
    · subst hb1
      exact absurd hab.symm (hx a ha2)
    · exact ih hxs ha2 hb2

/-- A contiguous, validly-statused stored chain parses into a returned
chain that is contiguous at entry level and preserves timestamps. -/
theorem optionMapList_chain (rows : List HistoryRow) (prev : String) (pe : ComplaintStatus)
    (hprev : translateOld prev = some pe)
    (hvalid : ∀ r ∈ rows, (ComplaintStatus.ofString r.new_status).isSome = true)
    (hchain : chainFromB prev rows = true) :
    ∃ l, optionMapList rowToEntry rows = some l ∧ entryChainFromB pe l = true ∧
      l.map (fun e => e.changed_at) = rows.map (fun r => r.changed_at) := by
  induction rows generalizing prev pe with
  | nil => exact ⟨[], rfl, rfl, rfl⟩
  | cons r rest ih =>
    have hv := hvalid r (List.mem_cons_self r rest)
    rcases Option.isSome_iff_exists.mp hv with ⟨n, hn⟩
    have hchain' : (r.old_status == prev) = true ∧ chainFromB r.new_status rest = true := by
      simpa [chainFromB] using hchain
    rcases hchain' with ⟨hold, hrest⟩
    have holdeq : r.old_status = prev := by simpa using hold
    have hre : rowToEntry r =
        some ⟨r.rowid, r.complaint_id, pe, n, r.changed_at, r.notes, r.changed_by⟩ := by
      unfold rowToEntry
      rw [holdeq, hprev, hn]
    have hprev' : translateOld r.new_status = some n := by
      rw [translateOld_of_valid r.new_status hv]
      exact hn
    obtain ⟨l, hl, hc, hm⟩ :=
      ih r.new_status n hprev' (fun x hx => hvalid x (List.mem_cons_of_mem r hx)) hrest
    refine ⟨(⟨r.rowid, r.complaint_id, pe, n, r.changed_at, r.notes, r.changed_by⟩ :
      StatusHistoryEntry) :: l, ?_, ?_, ?_⟩
    · unfold optionMapList
      rw [hre, hl]
    · unfold entryChainFromB
      simp only [beq_self_eq_true, Bool.true_and]
      exact hc
    · simp only [List.map_cons, hm]

/-- The fresh store satisfies the invariant. -/
theorem storeInv_init : StoreInv initState :=
  ⟨List.Pairwise.nil, fun h hh => absurd hh (List.not_mem_nil h),
   fun c hc => absurd hc (List.not_mem_nil c), fun c hc => absurd hc (List.not_mem_nil c),
   fun c hc => absurd hc (List.not_mem_nil c), fun h hh => absurd hh (List.not_mem_nil h),
   List.Pairwise.nil, fun h hh => absurd hh (List.not_mem_nil h)⟩

/-- A reference id with no complaint row has no history rows either. -/
theorem histFor_fresh (s : DBState) (cid : String) (hs : StoreInv s)
    (hfresh : ∀ c ∈ s.complaints, c.complaint_id ≠ cid) :
    histFor s cid = [] := by
  rw [histFor, List.filter_eq_nil_iff]
  intro h hh hcid
  rcases hs.owner h hh with ⟨c, hc, hccid⟩
  exact hfresh c hc (hccid.trans (by simpa using hcid))

/-- Inserting a fresh complaint row together with its initial audit row
preserves the store invariant. -/
theorem storeInv_insert (s : DBState) (cid : String) (newC : ComplaintRow)
    (newH : HistoryRow) (hs : StoreInv s)
    (hfresh : ∀ c ∈ s.complaints, c.complaint_id ≠ cid)
    (hCcid : newC.complaint_id = cid) (hHcid : newH.complaint_id = cid)
    (hCstatus : newC.status = "submitted") (hHold : newH.old_status = "new")
    (hHnew : newH.new_status = "submitted") (hHtime : newH.changed_at = s.clock) :
    StoreInv ⟨s.complaints ++ [newC], s.history ++ [newH], s.clock + 1⟩ := by
  have hnohist := histFor_fresh s cid hs hfresh
  have hfilter : ∀ x : String,
      histFor ⟨s.complaints ++ [newC], s.history ++ [newH], s.clock + 1⟩ x =
        histFor s x ++ List.filter (fun h => h.complaint_id == x) [newH] := by
    intro x
    simp [histFor, List.filter_append]
  refine ⟨?_, ?_, ?_, ?_, ?_, ?_, ?_, ?_⟩
  · rw [List.pairwise_append]
    refine ⟨hs.uniq, List.pairwise_singleton _ _, ?_⟩
    intro a ha b hb
    rw [List.mem_singleton] at hb
    subst hb
    rw [hCcid]
    exact hfresh a ha
  · intro h hh
    rcases List.mem_append.mp hh with hh | hh
    · rcases hs.owner h hh with ⟨c, hc, hcid⟩
      exact ⟨c, List.mem_append_left _ hc, hcid⟩
    · rw [List.mem_singleton] at hh
      subst hh
      exact ⟨newC, List.mem_append_right _ (List.mem_singleton_self _),
        hCcid.trans hHcid.symm⟩
  · intro c hc
    rcases List.mem_append.mp hc with hc | hc
    · rw [hfilter]
      intro hnil
      rcases List.append_eq_nil.mp hnil with ⟨h1, _⟩
      exact hs.historyNonempty c hc h1
    · rw [List.mem_singleton] at hc
      subst hc
      rw [hfilter, hCcid, hnohist]
      have : (newH.complaint_id == cid) = true := by simp [hHcid]
      simp [List.filter_cons, this]
  · intro c hc
    rcases List.mem_append.mp hc with hc | hc
    · rw [hfilter]
      have hne : (newH.complaint_id == c.complaint_id) = false := by
        rw [hHcid]
        exact beq_eq_false_iff_ne.mpr (fun h => hfresh c hc h.symm)
      simp only [List.filter_cons, hne, List.filter_nil, List.append_nil,
        Bool.false_eq_true, if_false]
      exact hs.chains c hc
    · rw [List.mem_singleton] at hc
      subst hc
      rw [hfilter, hCcid, hnohist]
      have : (newH.complaint_id == cid) = true := by simp [hHcid]
      simp [List.filter_cons, this, chainFromB, hHold]
  · intro c hc
    rcases List.mem_append.mp hc with hc | hc
    · rw [hfilter]
      have hne : (newH.complaint_id == c.complaint_id) = false := by
        rw [hHcid]
        exact beq_eq_false_iff_ne.mpr (fun h => hfresh c hc h.symm)
      simp only [List.filter_cons, hne, List.filter_nil, List.append_nil,
        Bool.false_eq_true, if_false]
      exact hs.lastSt c hc
    · rw [List.mem_singleton] at hc
      subst hc
      rw [hfilter, hCcid, hnohist]
      have : (newH.complaint_id == cid) = true := by simp [hHcid]
      simp [List.filter_cons, this, lastNewStatus, hHnew, hCstatus]
  · intro h hh
    rcases List.mem_append.mp hh with hh | hh
    · exact hs.validNew h hh
    · rw [List.mem_singleton] at hh
      subst hh
      rw [hHnew]
      decide
  · rw [List.pairwise_append]
    refine ⟨hs.sorted, List.pairwise_singleton _ _, ?_⟩
    intro a ha b hb
    rw [List.mem_singleton] at hb
    subst hb
    rw [hHtime]
    exact hs.clockLt a ha
  · intro h hh
    rcases List.mem_append.mp hh with hh | hh
    · exact Nat.lt_trans (hs.clockLt h hh) (Nat.lt_succ_self _)
    · rw [List.mem_singleton] at hh
      subst hh
      rw [hHtime]
      exact Nat.lt_succ_self _

/-- Updating an existing complaint's status and appending the matching
audit row preserves the store invariant. -/
theorem storeInv_update_aux (s : DBState) (cid ns : String) (row : ComplaintRow)
    (newH : HistoryRow) (hs : StoreInv s)
    (hfind : s.complaints.find? (fun c => c.complaint_id == cid) = some row)
    (hns : (ComplaintStatus.ofString ns).isSome = true)
    (hHcid : newH.complaint_id = cid) (hHold : newH.old_status = row.status)
    (hHnew : newH.new_status = ns) (hHtime : newH.changed_at = s.clock) :
    StoreInv ⟨s.complaints.map (fun c => if c.complaint_id == cid
        then { c with status := ns, updated_at := s.clock } else c),
      s.history ++ [newH], s.clock + 1⟩ := by
  have hrowmem : row ∈ s.complaints := List.mem_of_find?_eq_some hfind
  have hrowcid : row.complaint_id = cid := by
    simpa using List.find?_some (p := fun c : ComplaintRow => c.complaint_id == cid) hfind
  have gcid : ∀ c : ComplaintRow,
      ((if c.complaint_id == cid then { c with status := ns, updated_at := s.clock } else c) :
        ComplaintRow).complaint_id = c.complaint_id := by
    intro c
    by_cases h : (c.complaint_id == cid) = true
    · rw [if_pos h]
    · rw [if_neg h]
  have hfilter : ∀ x : String,
      histFor ⟨s.complaints.map (fun c => if c.complaint_id == cid
          then { c with status := ns, updated_at := s.clock } else c),
        s.history ++ [newH], s.clock + 1⟩ x =
        histFor s x ++ List.filter (fun h => h.complaint_id == x) [newH] := by
    intro x
    simp [histFor, List.filter_append]
  have hHtrue : (newH.complaint_id == cid) = true := by simp [hHcid]
  have hchains := hs.chains row hrowmem
  have hlast := hs.lastSt row hrowmem
  rw [hrowcid] at hchains hlast
  refine ⟨?_, ?_, ?_, ?_, ?_, ?_, ?_, ?_⟩
  · rw [List.pairwise_map]
    exact hs.uniq.imp (fun hab => by rw [gcid, gcid]; exact hab)
  · intro h hh
    rcases List.mem_append.mp hh with hh | hh
    · rcases hs.owner h hh with ⟨c, hc, hcid⟩
      exact ⟨_, List.mem_map_of_mem _ hc, (gcid c).trans hcid⟩
    · rw [List.mem_singleton] at hh
      subst hh
      exact ⟨_, List.mem_map_of_mem _ hrowmem, (gcid row).trans (hrowcid.trans hHcid.symm)⟩
  · intro c' hc'
    rcases List.mem_map.mp hc' with ⟨c, hc, rfl⟩
    rw [gcid c, hfilter]
    by_cases hcc : (c.complaint_id == cid) = true
    · have hceq : c = row :=
        uniq_cid_eq hs.uniq hc hrowmem ((by simpa using hcc : c.complaint_id = cid).trans
          hrowcid.symm)
      subst hceq
      rw [hrowcid]
      simp [List.filter_cons, hHtrue]
    · have hccne : c.complaint_id ≠ cid := by simpa using hcc
      have hne : (newH.complaint_id == c.complaint_id) = false := by
        rw [hHcid]
        exact beq_eq_false_iff_ne.mpr (fun h => hccne h.symm)
      simp only [List.filter_cons, hne, Bool.false_eq_true, if_false, List.filter_nil,
        List.append_nil]
      exact hs.historyNonempty c hc
  · intro c' hc'
    rcases List.mem_map.mp hc' with ⟨c, hc, rfl⟩
    rw [gcid c, hfilter]
    by_cases hcc : (c.complaint_id == cid) = true
    · have hceq : c = row :=
        uniq_cid_eq hs.uniq hc hrowmem ((by simpa using hcc : c.complaint_id = cid).trans
          hrowcid.symm)
      subst hceq
      rw [hrowcid]
      simp only [List.filter_cons, hHtrue, if_true, List.filter_nil]
      rw [chainFromB_append, hchains, hHold, hlast]
      simp
    · have hccne : c.complaint_id ≠ cid := by simpa using hcc
      have hne : (newH.complaint_id == c.complaint_id) = false := by
        rw [hHcid]
        exact beq_eq_false_iff_ne.mpr (fun h => hccne h.symm)
      simp only [List.filter_cons, hne, Bool.false_eq_true, if_false, List.filter_nil,
        List.append_nil]
      exact hs.chains c hc
  · intro c' hc'
    rcases List.mem_map.mp hc' with ⟨c, hc, rfl⟩
    by_cases hcc : (c.complaint_id == cid) = true
    · have hceq : c = row :=
        uniq_cid_eq hs.uniq hc hrowmem ((by simpa using hcc : c.complaint_id = cid).trans
          hrowcid.symm)
      subst hceq
      rw [hfilter, gcid c, hrowcid]
      simp only [List.filter_cons, hHtrue, if_true, List.filter_nil]
      rw [lastNewStatus_append, hHnew]
      simp
    · have hccne : c.complaint_id ≠ cid := by simpa using hcc
      have hne : (newH.complaint_id == c.complaint_id) = false := by
        rw [hHcid]
        exact beq_eq_false_iff_ne.mpr (fun h => hccne h.symm)
      rw [hfilter, gcid c]
      simp only [List.filter_cons, hne, Bool.false_eq_true, if_false, List.filter_nil,
        List.append_nil]
      rw [if_neg hcc]
      exact hs.lastSt c hc
  · intro h hh
    rcases List.mem_append.mp hh with hh | hh
    · exact hs.validNew h hh
    · rw [List.mem_singleton] at hh
      subst hh
      rw [hHnew]
      exact hns
  · rw [List.pairwise_append]
    refine ⟨hs.sorted, List.pairwise_singleton _ _, ?_⟩
    intro a ha b hb
    rw [List.mem_singleton] at hb
    subst hb
    rw [hHtime]
    exact hs.clockLt a ha
  · intro h hh
    rcases List.mem_append.mp hh with hh | hh
    · exact Nat.lt_trans (hs.clockLt h hh) (Nat.lt_succ_self _)
    · rw [List.mem_singleton] at hh
      subst hh
      rw [hHtime]
      exact Nat.lt_succ_self _

/-- `create_complaint` preserves the store invariant whenever its insert
succeeds. -/
theorem storeInv_create (s : DBState) (cid : String) (a : RegArgs) (s' : DBState)
    (hs : StoreInv s) (heq : createComplaint s cid a = some s') : StoreInv s' := by
  unfold createComplaint at heq
  by_cases hex : s.complaints.any (fun c => c.complaint_id == cid) = true
  · rw [if_pos hex] at heq
    exact Option.noConfusion heq
  · rw [if_neg hex] at heq
    have hfresh : ∀ c ∈ s.complaints, c.complaint_id ≠ cid := by
      intro c hc heqid
      exact hex (List.any_eq_true.mpr ⟨c, hc, by simpa using heqid⟩)
    cases heq
    exact storeInv_insert s cid _ _ hs hfresh rfl rfl rfl rfl rfl rfl

/-- `update_complaint_status` preserves the store invariant for any
valid target status string. -/
theorem storeInv_update (s : DBState) (cid ns : String)
    (hns : (ComplaintStatus.ofString ns).isSome = true) (notes cb : Option String)
    (hs : StoreInv s) : StoreInv (updateComplaintStatus s cid ns notes cb).2 := by
  unfold updateComplaintStatus
  rcases hf : getComplaintById s cid with _ | row
  · exact hs
  · exact storeInv_update_aux s cid ns row _ hs hf hns rfl rfl rfl rfl

/-- Every state reachable through the public interface satisfies the
store invariant. -/
theorem reachable_storeInv (s : DBState) (h : Reachable s) : StoreInv s := by
  induction h with
  | init => exact storeInv_init
  | register s s' cid a h heq ih => exact storeInv_create s cid a s' ih heq
  | transition s cid ns notes cb h ih =>
    exact storeInv_update s cid (ComplaintStatus.toString ns)
      (by rw [ofString_toString]; rfl) notes cb ih

/-- C1 counterexample: registering SF-0001 on the fresh store and
reading back its history yields a first entry whose prior status renders
as "submitted" — `get_status_history` maps the stored sentinel "new" to
the `submitted` member — so the returned first prior-status is not the
sentinel "new". -/
theorem history_first_prior_not_new_cex :
    createComplaint initState "SF-0001" exampleArgs = some exampleState ∧
      (getStatusHistory exampleState "SF-0001").map
        (fun l => l.map (fun e => ComplaintStatus.toString e.old_status)) =
        some ["submitted"] ∧
      ("submitted" : String) ≠ "new" := by decide

/-- C1 (amended): in every reachable store and for every reference id,
`history(id)` parses successfully and returns, oldest first, a
contiguous chain — each entry's prior status equals the previous entry's
new status — whose very first entry's prior status is returned as
`submitted` (the store records the sentinel "new", but
`get_status_history` maps it to `submitted`); the sequence is nonempty
whenever the id has a record. -/
theorem history_chain_submitted_first (s : DBState) (cid : String) (hr : Reachable s) :
    ∃ l, getStatusHistory s cid = some l ∧
      entryChainFromB ComplaintStatus.submitted l = true ∧
      l.Pairwise (fun a b => a.changed_at < b.changed_at) ∧
      ((∃ c ∈ s.complaints, c.complaint_id = cid) → l ≠ []) := by
  have hs := reachable_storeInv s hr
  by_cases hc : ∃ c ∈ s.complaints, c.complaint_id = cid
  · rcases hc with ⟨c, hcm, hccid⟩
    subst hccid
    obtain ⟨l, hl, hchain, hmap⟩ := optionMapList_chain (histFor s c.complaint_id) "new"
      .submitted rfl (fun r hrm => hs.validNew r (List.mem_of_mem_filter hrm))
      (hs.chains c hcm)
    refine ⟨l, hl, hchain, ?_, fun _ => ?_⟩
    · have hrows : (histFor s c.complaint_id).Pairwise
          (fun a b => a.changed_at < b.changed_at) :=
        List.Pairwise.filter _ hs.sorted
      have h1 : ((histFor s c.complaint_id).map (fun r => r.changed_at)).Pairwise (· < ·) :=
        List.pairwise_map.mpr hrows
      rw [← hmap] at h1
      exact List.pairwise_map.mp h1
    · intro hnil
      rw [hnil] at hmap
      exact hs.historyNonempty c hcm (List.map_eq_nil_iff.mp hmap.symm)
  · have hnil : histFor s cid = [] := by
      rw [histFor, List.filter_eq_nil_iff]
      intro h hh hcid
      rcases hs.owner h hh with ⟨c, hcm, hccid⟩
      exact hc ⟨c, hcm, hccid.trans (by simpa using hcid)⟩
    refine ⟨[], ?_, rfl, List.Pairwise.nil, fun hcon => absurd hcon hc⟩
    unfold getStatusHistory
    rw [hnil]
    rfl

/-- Witness for C1 at the store reached by one registration. -/
theorem history_chain_submitted_first_witness :
    ∃ l, getStatusHistory exampleState "SF-0001" = some l ∧
      entryChainFromB ComplaintStatus.submitted l = true ∧
      l.Pairwise (fun a b => a.changed_at < b.changed_at) ∧
      ((∃ c ∈ exampleState.complaints, c.complaint_id = "SF-0001") → l ≠ []) :=
  history_chain_submitted_first exampleState "SF-0001"
    (Reachable.register initState exampleState "SF-0001" exampleArgs Reachable.init
      exampleState_create)
